import Mathlib

/-!
Verification of the bulk email dispatch engine of the NewsLetterManager
repository (`server/email.ts`, class `EmailService`, together with the
persistence operations `getSmtpDailyCount` and `logEmail` of
`server/storage.ts`).

The dispatcher is shallowly embedded: the mutable fields of the
`EmailService` instance (`transports`, `currentSmtpIndex`, `smtpQueue`)
become an explicit state record threaded through the operations, the
persistence layer becomes a `Storage` record (configured servers, the
sent-count accumulated before the run, and the append-only delivery log),
and the outcomes of the external world (whether a `sendMail` call or a
`logEmail` call rejects) are supplied by an environment oracle indexed by
task position.  Observable actions (the `sendMail` call, each log write,
each `delay` call with its duration) are collected in a trace.

The model assumes a run stays within one local calendar day, so the
daily count of a server is its count at the start of the run plus the
`sent` entries appended to the log during the run, exactly what
`getSmtpDailyCount` computes over the shared `emailLogs` collection.
-/

namespace EmailDispatch

/-- Delay constant from `email.ts`: `const RATE_LIMIT_DELAY = 2000`. -/
def RATE_LIMIT_DELAY : Nat := 2000

/-- Status field of a delivery-log entry: `"sent"` or `"failed"`. -/
inductive LogStatus where
  | sent
  | failed
deriving DecidableEq, Repr

/-- One document of the `emailLogs` collection, as written by
`storage.logEmail` (the `sentAt` timestamp is left implicit: every entry
appended during the modelled run is dated today). -/
structure EmailLogEntry where
  smtpConfigId : Nat
  campaignId : String
  subscriberId : String
  status : LogStatus
  errorText : Option String := none
deriving DecidableEq, Repr

/-- An SMTP server configuration (`ISmtpConfig`); `_id` is modelled as a
natural number. -/
structure SmtpConfig where
  id : Nat
  host : String := ""
  port : Nat := 587
  username : String := ""
  password : String := ""
  fromName : String := ""
  fromEmail : String := ""
  isDefault : Bool := false
  dailyLimit : Nat
deriving DecidableEq, Repr

/-- The persistence layer as seen by the dispatcher: the configured
servers (`getSmtpConfigs`), the number of `sent` entries each server
already has today from before this run, and the entries appended during
the run. -/
structure Storage where
  configs : List SmtpConfig
  baseSentCount : Nat → Nat
  logs : List EmailLogEntry := []

/-- Embeds `storage.getSmtpDailyCount`: the number of `sent`-status log
documents for the given server id dated today. -/
def Storage.getSmtpDailyCount (st : Storage) (id : Nat) : Nat :=
  st.baseSentCount id +
    (st.logs.filter (fun e => e.smtpConfigId == id && e.status == LogStatus.sent)).length

/-- Embeds `storage.logEmail`: appends one delivery-log document. -/
def Storage.logEmail (st : Storage) (e : EmailLogEntry) : Storage :=
  { st with logs := st.logs ++ [e] }

/-- A nodemailer transporter as configured by `getTransport`:
`createTransport({host, port, secure: port === 465, auth: {user, pass}})`. -/
structure Transport where
  host : String
  port : Nat
  secure : Bool
  user : String
  pass : String
deriving DecidableEq, Repr

/-- The transporter `nodemailer.createTransport` builds from a config. -/
def mkTransport (config : SmtpConfig) : Transport :=
  { host := config.host
    port := config.port
    secure := config.port == 465
    user := config.username
    pass := config.password }

/-- The mutable state of the `EmailService` instance: the transporter
cache keyed by config id, the rotation cursor, and the rotation queue. -/
structure EmailService where
  transports : List (Nat × Transport) := []
  currentSmtpIndex : Nat := 0
  smtpQueue : List SmtpConfig := []
deriving DecidableEq, Repr

/-- One element of the `emails` array passed to `sendBulkEmails`.
`toAddr` is the source's `to` field (`to` is reserved in Lean). -/
structure Email where
  subscriberId : String
  toAddr : String
  subject : String
  html : String
deriving DecidableEq, Repr

/-- The errors that cross the dispatcher's boundaries, identified by the
message carried by the thrown `Error` object.  `noSmtp` and
`quotaExhausted` are thrown by `getNextAvailableSmtp`; `env` wraps an
error injected by the outside world (a rejected `sendMail` or `logEmail`
call). -/
inductive JsError where
  | noSmtp
  | quotaExhausted
  | env (msg : String)
deriving DecidableEq, Repr

/-- The `.message` of the thrown `Error`, as read by the catch block. -/
def JsError.message : JsError → String
  | .noSmtp => "No SMTP configurations available"
  | .quotaExhausted => "Daily sending limit reached for all SMTP configurations"
  | .env msg => msg

/-- Environment oracle: for the task at a given position of the batch,
whether the `sendMail` call rejects (and with which message), whether the
success-path `logEmail` call rejects, and whether the failure-path
`logEmail` call rejects.  `none` means the operation succeeds. -/
structure Env where
  sendFails : Nat → Option String
  sentLogFails : Nat → Option String
  failedLogFails : Nat → Option String

/-- Observable actions of a run: a `sendMail` call (the attempt, whether
or not it succeeds), a delivery-log write, and a `delay` call with its
duration in milliseconds. -/
inductive Event where
  | send (smtpConfigId : Nat) (fromField : String) (toAddr : String) (subject : String)
  | log (entry : EmailLogEntry)
  | wait (ms : Nat)
deriving DecidableEq, Repr

/-- The `from` field of the envelope built by `sendBulkEmails`:
`"{fromName}" <{fromEmail}>`. -/
def fromField (config : SmtpConfig) : String :=
  "\"" ++ config.fromName ++ "\" <" ++ config.fromEmail ++ ">"

/-- Outcome of a (possibly aborted) run of the dispatch loop: the event
trace, the final storage and service state, and the error the batch was
aborted with, if any. -/
structure RunResult where
  trace : List Event
  storage : Storage
  svc : EmailService
  err : Option JsError := none

/-- Embeds `getTransport`: returns the cached transporter for the
config's id, creating and caching one first if absent. -/
def getTransport (svc : EmailService) (config : SmtpConfig) :
    EmailService × Transport :=
  match svc.transports.lookup config.id with
  | some t => (svc, t)
  | none =>
    let t := mkTransport config
    ({ svc with transports := (config.id, t) :: svc.transports }, t)

/-- Embeds `refreshSmtpQueue`: rebuilds the queue from the stored
configs, the default config (if any) first followed by the non-default
ones in stored order, and resets the cursor to 0. -/
def refreshSmtpQueue (st : Storage) (svc : EmailService) : EmailService :=
  let configs := st.configs
  match configs.find? (fun c => c.isDefault) with
  | some defaultConfig =>
    { svc with
      smtpQueue := defaultConfig :: configs.filter (fun c => !c.isDefault)
      currentSmtpIndex := 0 }
  | none =>
    { svc with smtpQueue := configs, currentSmtpIndex := 0 }

/-- Embeds the `do … while (true)` scan of `getNextAvailableSmtp`:
at the current index, if the server's daily count is below its limit the
scan stops there, otherwise the index advances by one modulo the queue
length and the scan fails with `quotaExhausted` when it wraps back to
`startIndex`.  The JS loop is unbounded; here it carries a fuel
parameter, and the theorems below show that `queue.length` fuel is never
exhausted before the loop's own exit conditions fire, so the fuelled
function computes the loop exactly.  Reading a field of `undefined`
(an out-of-range index) is the corresponding JS `TypeError`. -/
def scanFrom (st : Storage) (queue : List SmtpConfig) (startIndex : Nat) :
    Nat → Nat → Except JsError (SmtpConfig × Nat)
  | _, 0 => .error .quotaExhausted
  | cur, fuel + 1 =>
    match queue[cur]? with
    | none => .error (.env "TypeError: Cannot read properties of undefined")
    | some config =>
      if st.getSmtpDailyCount config.id < config.dailyLimit then
        .ok (config, cur)
      else
        let next := (cur + 1) % queue.length
        if next = startIndex then
          .error .quotaExhausted
        else
          scanFrom st queue startIndex next fuel

/-- Number of queue positions the scan of `scanFrom` examines (one per
loop iteration). -/
def scanFromSteps (st : Storage) (queue : List SmtpConfig) (startIndex : Nat) :
    Nat → Nat → Nat
  | _, 0 => 0
  | cur, fuel + 1 =>
    match queue[cur]? with
    | none => 1
    | some config =>
      if st.getSmtpDailyCount config.id < config.dailyLimit then
        1
      else
        let next := (cur + 1) % queue.length
        if next = startIndex then
          1
        else
          1 + scanFromSteps st queue startIndex next fuel

/-- Embeds `getNextAvailableSmtp`: refreshes the queue if it is empty,
fails with `noSmtp` if it is still empty, and otherwise scans from the
current cursor.  On success the cursor is left at the returned server's
index; on `quotaExhausted` the cursor has wrapped back to its starting
value, so the state is returned unchanged apart from a possible refresh. -/
def getNextAvailableSmtp (st : Storage) (svc0 : EmailService) :
    Except JsError SmtpConfig × EmailService :=
  let svc := if svc0.smtpQueue.isEmpty then refreshSmtpQueue st svc0 else svc0
  if svc.smtpQueue.isEmpty then
    (.error .noSmtp, svc)
  else
    match scanFrom st svc.smtpQueue svc.currentSmtpIndex svc.currentSmtpIndex
        svc.smtpQueue.length with
    | .ok (config, idx) => (.ok config, { svc with currentSmtpIndex := idx })
    | .error e => (.error e, svc)

/-- Embeds the `try` block of the loop body of `sendBulkEmails` for the
task at position `k`: select a server, obtain its transporter, attempt
the send, and on success append the `sent` log entry and request the
pacing delay.  `inl` carries the emitted events, the updated storage and
service state; `inr` carries the events emitted before the throw, the
service state at the throw, and the caught error. -/
def tryStep (env : Env) (campaignId : String) (k : Nat) (email : Email)
    (st : Storage) (svc : EmailService) :
    (List Event × Storage × EmailService) ⊕ (List Event × EmailService × JsError) :=
  match getNextAvailableSmtp st svc with
  | (.error e, svc1) => .inr ([], svc1, e)
  | (.ok config, svc1) =>
    let svc2 := (getTransport svc1 config).1
    let sendEv := Event.send config.id (fromField config) email.toAddr email.subject
    match env.sendFails k with
    | some msg => .inr ([sendEv], svc2, .env msg)
    | none =>
      let entry : EmailLogEntry :=
        { smtpConfigId := config.id
          campaignId := campaignId
          subscriberId := email.subscriberId
          status := .sent }
      match env.sentLogFails k with
      | some msg => .inr ([sendEv], svc2, .env msg)
      | none =>
        .inl ([sendEv, .log entry, .wait RATE_LIMIT_DELAY], st.logEmail entry, svc2)

/-- Embeds the `catch` block of the loop body of `sendBulkEmails`:
re-select a server via `getNextAvailableSmtp`, append a `failed` log
entry carrying the caught error's message against that selection, and
request twice the pacing delay.  A throw inside the catch block (from
the re-selection or from the log write) is not caught again: `inr`
aborts the batch with that error. -/
def catchStep (env : Env) (campaignId : String) (k : Nat) (email : Email)
    (st : Storage) (svc : EmailService) (caught : JsError) :
    (List Event × Storage × EmailService) ⊕ (EmailService × JsError) :=
  match getNextAvailableSmtp st svc with
  | (.error e, svc1) => .inr (svc1, e)
  | (.ok config, svc1) =>
    match env.failedLogFails k with
    | some msg => .inr (svc1, .env msg)
    | none =>
      let entry : EmailLogEntry :=
        { smtpConfigId := config.id
          campaignId := campaignId
          subscriberId := email.subscriberId
          status := .failed
          errorText := some caught.message }
      .inl ([.log entry, .wait (RATE_LIMIT_DELAY * 2)], st.logEmail entry, svc1)

/-- Embeds the `for (const email of emails)` loop of `sendBulkEmails`,
starting at task position `k`.  Each task runs its try block; a caught
error runs the catch block; a throw out of the catch block ends the run
with that error and the remaining tasks are not processed. -/
def processEmails (env : Env) (campaignId : String) :
    Nat → List Email → Storage → EmailService → RunResult
  | _, [], st, svc => { trace := [], storage := st, svc := svc }
  | k, email :: rest, st, svc =>
    match tryStep env campaignId k email st svc with
    | .inl (evs, st1, svc1) =>
      let r := processEmails env campaignId (k + 1) rest st1 svc1
      { r with trace := evs ++ r.trace }
    | .inr (evs, svc1, caught) =>
      match catchStep env campaignId k email st svc1 caught with
      | .inl (evs2, st1, svc2) =>
        let r := processEmails env campaignId (k + 1) rest st1 svc2
        { r with trace := evs ++ evs2 ++ r.trace }
      | .inr (svc2, e) =>
        { trace := evs, storage := st, svc := svc2, err := some e }

/-- Embeds `sendBulkEmails`: refresh the rotation queue once, then run
the dispatch loop over the whole batch. -/
def sendBulkEmails (env : Env) (campaignId : String) (emails : List Email)
    (st : Storage) (svc : EmailService) : RunResult :=
  processEmails env campaignId 0 emails st (refreshSmtpQueue st svc)

/-- A server is under quota when today's sent count is strictly below
its daily limit. -/
def underQuota (st : Storage) (config : SmtpConfig) : Prop :=
  st.getSmtpDailyCount config.id < config.dailyLimit

instance (st : Storage) (config : SmtpConfig) : Decidable (underQuota st config) :=
  inferInstanceAs (Decidable (_ < _))

/-- The delay the loop body requests after a log entry of the given
status: the pacing delay after a `sent` entry, twice it after a `failed`
entry. -/
def pacedWait (s : LogStatus) : Nat :=
  match s with
  | .sent => RATE_LIMIT_DELAY
  | .failed => RATE_LIMIT_DELAY * 2

/-- A trace is paced when every delivery-log event is immediately
followed by a `delay` request of the corresponding duration. -/
def pacedTrace : List Event → Prop
  | [] => True
  | Event.log e :: rest =>
    rest.head? = some (Event.wait (pacedWait e.status)) ∧ pacedTrace rest
  | Event.send _ _ _ _ :: rest => pacedTrace rest
  | Event.wait _ :: rest => pacedTrace rest

/-- The `sent` delivery-log entry written for a successful send of the
given task through the given server. -/
def sentEntry (campaignId : String) (config : SmtpConfig) (email : Email) : EmailLogEntry :=
  { smtpConfigId := config.id
    campaignId := campaignId
    subscriberId := email.subscriberId
    status := .sent }

/-- The `failed` delivery-log entry written in the catch block for the
given task against the given (re-selected) server, carrying the caught
error's message. -/
def failedEntry (campaignId : String) (config : SmtpConfig) (email : Email)
    (msg : String) : EmailLogEntry :=
  { smtpConfigId := config.id
    campaignId := campaignId
    subscriberId := email.subscriberId
    status := .failed
    errorText := some msg }

/-- The events one successfully delivered task contributes to the trace. -/
def sentTaskEvents (campaignId : String) (config : SmtpConfig) (email : Email) : List Event :=
  [Event.send config.id (fromField config) email.toAddr email.subject,
   Event.log (sentEntry campaignId config email),
   Event.wait RATE_LIMIT_DELAY]

/-- Every transporter cached in the first state is still cached,
unchanged, in the second state. -/
def transportsExtend (svcA svcB : EmailService) : Prop :=
  ∀ key t, svcA.transports.lookup key = some t → svcB.transports.lookup key = some t

/-! Section: Concrete fixtures used by the witnesses -/

/-- Fixture: empty server pool. -/
def exStorageEmpty : Storage :=
  { configs := [], baseSentCount := fun _ => 0 }

/-- Fixture: a default server with a daily limit of 1. -/
def exA : SmtpConfig :=
  { id := 0, fromName := "News", fromEmail := "a@pool", isDefault := true, dailyLimit := 1 }

/-- Fixture: a non-default server with a daily limit of 5. -/
def exB : SmtpConfig :=
  { id := 1, fromName := "News", fromEmail := "b@pool", dailyLimit := 5 }

/-- Fixture: a lone server with a daily limit of 2. -/
def exC : SmtpConfig :=
  { id := 7, fromName := "News", fromEmail := "c@pool", dailyLimit := 2 }

/-- Fixture: a cached transporter for server `exB`. -/
def exT : Transport := mkTransport exB

/-- Fixture: service state with `exT` cached under server id 1 and an
empty rotation queue. -/
def exSvcT : EmailService :=
  { transports := [(1, exT)] }

/-- Fixture: two-server pool, server `exA` already at its limit today. -/
def exStorageAFull : Storage :=
  { configs := [exA, exB], baseSentCount := fun i => if i = 0 then 1 else 0 }

/-- Fixture: two-server pool with no messages sent today. -/
def exStorageFresh : Storage :=
  { configs := [exA, exB], baseSentCount := fun _ => 0 }

/-- Fixture: two-server pool with both servers at their limits today. -/
def exStorageAllFull : Storage :=
  { configs := [exA, exB], baseSentCount := fun i => if i = 0 then 1 else 5 }

/-- Fixture: single-server pool with no messages sent today. -/
def exStorageSingle : Storage :=
  { configs := [exC], baseSentCount := fun _ => 0 }

/-- Fixture: service state whose rotation queue holds the two-server pool. -/
def exSvc : EmailService :=
  { smtpQueue := [exA, exB] }

/-- Fixture: environment in which every external call succeeds. -/
def exEnvOK : Env :=
  { sendFails := fun _ => none, sentLogFails := fun _ => none, failedLogFails := fun _ => none }

/-- Fixture: environment in which the first task's send attempt rejects. -/
def exEnvSendFail : Env :=
  { sendFails := fun k => if k = 0 then some "connection refused" else none
    sentLogFails := fun _ => none
    failedLogFails := fun _ => none }

/-- Fixture: environment in which the first task's success-path log write rejects. -/
def exEnvLogFail : Env :=
  { sendFails := fun _ => none
    sentLogFails := fun k => if k = 0 then some "db write failed" else none
    failedLogFails := fun _ => none }

/-- Fixture: first task. -/
def exEmail1 : Email :=
  { subscriberId := "s1", toAddr := "u1@example.com", subject := "hello", html := "<p>1</p>" }

/-- Fixture: second task. -/
def exEmail2 : Email :=
  { subscriberId := "s2", toAddr := "u2@example.com", subject := "hello", html := "<p>2</p>" }

/-- Fixture: third task. -/
def exEmail3 : Email :=
  { subscriberId := "s3", toAddr := "u3@example.com", subject := "hello", html := "<p>3</p>" }

/-- Fixture: a three-task batch. -/
def exEmails : List Email := [exEmail1, exEmail2, exEmail3]

/-! Section: Lemmas about `refreshSmtpQueue` -/

theorem refresh_transports (st : Storage) (svc : EmailService) :
    (refreshSmtpQueue st svc).transports = svc.transports := by
  simp only [refreshSmtpQueue]
  split <;> rfl

theorem refresh_cursor (st : Storage) (svc : EmailService) :
    (refreshSmtpQueue st svc).currentSmtpIndex = 0 := by
  simp only [refreshSmtpQueue]
  split <;> rfl

theorem refresh_queue_congr (st : Storage) (svc svc2 : EmailService) :
    (refreshSmtpQueue st svc).smtpQueue = (refreshSmtpQueue st svc2).smtpQueue := by
  simp only [refreshSmtpQueue]
  split <;> rfl

theorem refresh_idem (st : Storage) (svc : EmailService) :
    refreshSmtpQueue st (refreshSmtpQueue st svc) = refreshSmtpQueue st svc := by
  simp only [refreshSmtpQueue]
  split <;> rfl

/-! Section: Lemmas about the quota scan -/

theorem scanFrom_ok_char (st : Storage) (queue : List SmtpConfig) (startIndex : Nat) :
    ∀ fuel cur config idx,
      scanFrom st queue startIndex cur fuel = Except.ok (config, idx) →
      queue[idx]? = some config ∧ underQuota st config := by
  intro fuel
  induction fuel with
  | zero =>
    intro cur config idx h
    simp [scanFrom] at h
  | succ n ih =>
    intro cur config idx h
    simp only [scanFrom] at h
    split at h
    · simp at h
    next c hq =>
      split at h
      next hlt =>
        simp only [Except.ok.injEq, Prod.mk.injEq] at h
        obtain ⟨rfl, rfl⟩ := h
        exact ⟨hq, hlt⟩
      next hlt =>
        split at h
        · simp at h
        · exact ih _ _ _ h

theorem scanFrom_ok_first (st : Storage) (queue : List SmtpConfig) (startIndex : Nat) :
    ∀ fuel cur config idx, cur < queue.length →
      scanFrom st queue startIndex cur fuel = Except.ok (config, idx) →
      ∃ j < fuel, idx = (cur + j) % queue.length ∧
        ∀ i < j, ∃ ci, queue[(cur + i) % queue.length]? = some ci ∧
          ¬ underQuota st ci := by
  intro fuel
  induction fuel with
  | zero =>
    intro cur config idx _ h
    simp [scanFrom] at h
  | succ n ih =>
    intro cur config idx hcur h
    simp only [scanFrom] at h
    split at h
    · simp at h
    next c hq =>
      split at h
      next hlt =>
        simp only [Except.ok.injEq, Prod.mk.injEq] at h
        obtain ⟨rfl, rfl⟩ := h
        exact ⟨0, Nat.succ_pos n, by rw [Nat.add_zero, Nat.mod_eq_of_lt hcur],
          fun i hi => absurd hi (Nat.not_lt_zero i)⟩
      next hlt =>
        split at h
        · simp at h
        next hw =>
          obtain ⟨j', hj', hidx, hall⟩ :=
            ih ((cur + 1) % queue.length) config idx (Nat.mod_lt _ (by omega)) h
          refine ⟨j' + 1, by omega, ?_, ?_⟩
          · rw [hidx, Nat.mod_add_mod]
            congr 1
            omega
          · intro i hi
            cases i with
            | zero =>
              exact ⟨c, by rw [Nat.add_zero, Nat.mod_eq_of_lt hcur]; exact hq, hlt⟩
            | succ i' =>
              obtain ⟨ci, hci, hnq⟩ := hall i' (by omega)
              refine ⟨ci, ?_, hnq⟩
              rw [Nat.mod_add_mod] at hci
              have harith : cur + 1 + i' = cur + (i' + 1) := by omega
              rw [harith] at hci
              exact hci

theorem scanFrom_ok_of_exists (st : Storage) (queue : List SmtpConfig) (startIndex : Nat) :
    ∀ fuel cur, cur < queue.length →
      (∃ j < fuel, (∃ cj, queue[(cur + j) % queue.length]? = some cj ∧ underQuota st cj) ∧
        ∀ i, 0 < i → i ≤ j → (cur + i) % queue.length ≠ startIndex) →
      ∃ config idx, scanFrom st queue startIndex cur fuel = Except.ok (config, idx) := by
  intro fuel
  induction fuel with
  | zero =>
    intro cur _ h
    obtain ⟨j, hj, _⟩ := h
    omega
  | succ n ih =>
    intro cur hcur h
    obtain ⟨j, hj, ⟨cj, hcj, hcjq⟩, hnw⟩ := h
    have hq : queue[cur]? = some queue[cur] := List.getElem?_eq_getElem hcur
    by_cases hlt : st.getSmtpDailyCount queue[cur].id < queue[cur].dailyLimit
    · refine ⟨queue[cur], cur, ?_⟩
      simp only [scanFrom, hq, if_pos hlt]
    · have hj0 : j ≠ 0 := by
        intro h0
        rw [h0, Nat.add_zero, Nat.mod_eq_of_lt hcur, hq] at hcj
        cases hcj
        exact hlt hcjq
      have hnext : (cur + 1) % queue.length ≠ startIndex :=
        hnw 1 Nat.one_pos (by omega)
      have hcj' : queue[((cur + 1) % queue.length + (j - 1)) % queue.length]? = some cj := by
        rw [Nat.mod_add_mod]
        have harith : cur + 1 + (j - 1) = cur + j := by omega
        rw [harith]
        exact hcj
      have hnw' : ∀ i, 0 < i → i ≤ j - 1 →
          ((cur + 1) % queue.length + i) % queue.length ≠ startIndex := by
        intro i hi hij
        rw [Nat.mod_add_mod]
        have harith : cur + 1 + i = cur + (1 + i) := by omega
        rw [harith]
        exact hnw (1 + i) (by omega) (by omega)
      obtain ⟨config, idx, hscan⟩ := ih ((cur + 1) % queue.length)
        (Nat.mod_lt _ (by omega)) ⟨j - 1, by omega, ⟨cj, hcj', hcjq⟩, hnw'⟩
      refine ⟨config, idx, ?_⟩
      simp only [scanFrom, hq, if_neg hlt, if_neg hnext]
      exact hscan

theorem scanFrom_exhausted (st : Storage) (queue : List SmtpConfig) (startIndex : Nat)
    (hall : ∀ c ∈ queue, ¬ underQuota st c) :
    ∀ fuel cur, cur < queue.length →
      scanFrom st queue startIndex cur fuel = Except.error JsError.quotaExhausted := by
  intro fuel
  induction fuel with
  | zero =>
    intro cur _
    simp [scanFrom]
  | succ n ih =>
    intro cur hcur
    have hq : queue[cur]? = some queue[cur] := List.getElem?_eq_getElem hcur
    have hmem : queue[cur] ∈ queue := List.getElem_mem hcur
    have hnq : ¬ st.getSmtpDailyCount queue[cur].id < queue[cur].dailyLimit :=
      hall _ hmem
    simp only [scanFrom, hq, if_neg hnq]
    split
    · rfl
    · exact ih _ (Nat.mod_lt _ (by omega))

theorem scanFromSteps_le (st : Storage) (queue : List SmtpConfig) (startIndex : Nat)
    (hstart : startIndex < queue.length) :
    ∀ fuel cur, cur < queue.length →
      scanFromSteps st queue startIndex cur fuel ≤
        (if cur < startIndex then startIndex - cur
         else startIndex + queue.length - cur) := by
  intro fuel
  induction fuel with
  | zero =>
    intro cur hcur
    simp only [scanFromSteps]
    split <;> omega
  | succ n ih =>
    intro cur hcur
    have hq : queue[cur]? = some queue[cur] := List.getElem?_eq_getElem hcur
    simp only [scanFromSteps, hq]
    split
    · split <;> omega
    · split
      · split <;> omega
      next hw =>
        have hnext := ih ((cur + 1) % queue.length) (Nat.mod_lt _ (by omega))
        by_cases hc1 : cur + 1 < queue.length
        · rw [Nat.mod_eq_of_lt hc1] at hnext hw ⊢
          split at hnext <;> split <;> omega
        · have hc2 : cur + 1 = queue.length := by omega
          have hz : (cur + 1) % queue.length = 0 := by
            rw [hc2, Nat.mod_self]
          rw [hz] at hnext hw ⊢
          have hs0 : 0 < startIndex := by omega
          rw [if_pos hs0] at hnext
          split <;> omega

/-! Section: Lemmas about `getNextAvailableSmtp` -/

theorem isEmpty_false_of_ne_nil {α : Type} {l : List α} (h : l ≠ []) :
    l.isEmpty = false := by
  cases l with
  | nil => exact absurd rfl h
  | cons a t => rfl

theorem svc_eta (svc : EmailService) :
    { svc with currentSmtpIndex := svc.currentSmtpIndex } = svc := rfl

theorem getNext_nonempty (st : Storage) (svc : EmailService)
    (hne : svc.smtpQueue ≠ []) :
    getNextAvailableSmtp st svc =
      (match scanFrom st svc.smtpQueue svc.currentSmtpIndex svc.currentSmtpIndex
          svc.smtpQueue.length with
      | .ok (config, idx) => (.ok config, { svc with currentSmtpIndex := idx })
      | .error e => (.error e, svc)) := by
  simp [getNextAvailableSmtp, isEmpty_false_of_ne_nil hne]

theorem getNext_empty_queue (st : Storage) (svc : EmailService)
    (h : svc.smtpQueue = []) :
    getNextAvailableSmtp st svc =
      (let svcR := refreshSmtpQueue st svc
       if svcR.smtpQueue.isEmpty then (.error .noSmtp, svcR)
       else
         match scanFrom st svcR.smtpQueue svcR.currentSmtpIndex svcR.currentSmtpIndex
             svcR.smtpQueue.length with
         | .ok (config, idx) => (.ok config, { svcR with currentSmtpIndex := idx })
         | .error e => (.error e, svcR)) := by
  have hE : svc.smtpQueue.isEmpty = true := by rw [h]; rfl
  simp only [getNextAvailableSmtp, hE, if_true]

theorem getNext_of_empty (st : Storage) (svc : EmailService) (h : svc.smtpQueue = []) :
    getNextAvailableSmtp st svc = getNextAvailableSmtp st (refreshSmtpQueue st svc) := by
  rw [getNext_empty_queue st svc h]
  by_cases h2 : (refreshSmtpQueue st svc).smtpQueue = []
  · rw [getNext_empty_queue st _ h2, refresh_idem]
  · rw [getNext_nonempty st _ h2]
    simp [isEmpty_false_of_ne_nil h2]

theorem getNext_ok_inv_aux (st : Storage) (svc svc' : EmailService) (config : SmtpConfig)
    (hne : svc.smtpQueue ≠ [])
    (h : getNextAvailableSmtp st svc = (Except.ok config, svc')) :
    svc'.smtpQueue = svc.smtpQueue ∧
      svc'.smtpQueue[svc'.currentSmtpIndex]? = some config ∧
      underQuota st config ∧ svc'.transports = svc.transports := by
  rw [getNext_nonempty st svc hne] at h
  cases hscan : scanFrom st svc.smtpQueue svc.currentSmtpIndex svc.currentSmtpIndex
      svc.smtpQueue.length with
  | error e =>
    rw [hscan] at h
    simp at h
  | ok p =>
    obtain ⟨c, idx⟩ := p
    rw [hscan] at h
    simp only [Prod.mk.injEq, Except.ok.injEq] at h
    obtain ⟨rfl, rfl⟩ := h
    obtain ⟨hget, hquota⟩ := scanFrom_ok_char st _ _ _ _ _ _ hscan
    exact ⟨rfl, hget, hquota, rfl⟩

theorem getNext_ok_inv (st : Storage) (svc svc' : EmailService) (config : SmtpConfig)
    (h : getNextAvailableSmtp st svc = (Except.ok config, svc')) :
    svc'.smtpQueue ≠ [] ∧
      svc'.smtpQueue[svc'.currentSmtpIndex]? = some config ∧
      underQuota st config := by
  by_cases hq : svc.smtpQueue = []
  · rw [getNext_of_empty st svc hq] at h
    by_cases h2 : (refreshSmtpQueue st svc).smtpQueue = []
    · exfalso
      rw [getNext_empty_queue st _ h2, refresh_idem] at h
      simp [h2] at h
    · obtain ⟨hq', hget, hquota, _⟩ := getNext_ok_inv_aux st _ svc' config h2 h
      exact ⟨by rw [hq']; exact h2, hget, hquota⟩
  · obtain ⟨hq', hget, hquota, _⟩ := getNext_ok_inv_aux st svc svc' config hq h
    exact ⟨by rw [hq']; exact hq, hget, hquota⟩

theorem getNext_ok_again (st : Storage) (svc svc' svc2 : EmailService) (config : SmtpConfig)
    (h : getNextAvailableSmtp st svc = (Except.ok config, svc'))
    (hq : svc2.smtpQueue = svc'.smtpQueue)
    (hc : svc2.currentSmtpIndex = svc'.currentSmtpIndex) :
    getNextAvailableSmtp st svc2 = (Except.ok config, svc2) := by
  obtain ⟨hne, hget, hquota⟩ := getNext_ok_inv st svc svc' config h
  have hne2 : svc2.smtpQueue ≠ [] := by rw [hq]; exact hne
  rw [getNext_nonempty st svc2 hne2]
  obtain ⟨n, hn⟩ : ∃ n, svc2.smtpQueue.length = n + 1 := by
    cases hl : svc2.smtpQueue with
    | nil => exact absurd hl hne2
    | cons a t => exact ⟨t.length, by simp⟩
  have hget2 : svc2.smtpQueue[svc2.currentSmtpIndex]? = some config := by
    rw [hq, hc]; exact hget
  have hquota' : st.getSmtpDailyCount config.id < config.dailyLimit := hquota
  rw [hn]
  simp only [scanFrom, hget2]
  rw [if_pos hquota']

theorem getNext_error_again (st : Storage) (svc svc' : EmailService) (e : JsError)
    (h : getNextAvailableSmtp st svc = (Except.error e, svc')) :
    getNextAvailableSmtp st svc' = (Except.error e, svc') := by
  by_cases hq : svc.smtpQueue = []
  · rw [getNext_of_empty st svc hq] at h
    by_cases h2 : (refreshSmtpQueue st svc).smtpQueue = []
    · have hEq : getNextAvailableSmtp st (refreshSmtpQueue st svc) =
          (Except.error JsError.noSmtp, refreshSmtpQueue st svc) := by
        rw [getNext_empty_queue st _ h2, refresh_idem]
        simp [h2]
      rw [hEq] at h
      obtain ⟨he, hsvc⟩ := Prod.mk.inj h
      injection he with he'
      subst he'
      subst hsvc
      exact hEq
    · rw [getNext_nonempty st _ h2] at h
      cases hscan : scanFrom st (refreshSmtpQueue st svc).smtpQueue
          (refreshSmtpQueue st svc).currentSmtpIndex
          (refreshSmtpQueue st svc).currentSmtpIndex
          (refreshSmtpQueue st svc).smtpQueue.length with
      | ok p =>
        rw [hscan] at h
        obtain ⟨c, idx⟩ := p
        simp at h
      | error e' =>
        rw [hscan] at h
        simp only [Prod.mk.injEq, Except.error.injEq] at h
        obtain ⟨rfl, rfl⟩ := h
        rw [getNext_nonempty st _ h2, hscan]
  · rw [getNext_nonempty st svc hq] at h
    cases hscan : scanFrom st svc.smtpQueue svc.currentSmtpIndex svc.currentSmtpIndex
        svc.smtpQueue.length with
    | ok p =>
      rw [hscan] at h
      obtain ⟨c, idx⟩ := p
      simp at h
    | error e' =>
      rw [hscan] at h
      simp only [Prod.mk.injEq, Except.error.injEq] at h
      obtain ⟨rfl, rfl⟩ := h
      rw [getNext_nonempty st svc hq, hscan]

theorem getNext_transports (st : Storage) (svc : EmailService) :
    ((getNextAvailableSmtp st svc).2).transports = svc.transports := by
  by_cases hq : svc.smtpQueue = []
  · rw [getNext_of_empty st svc hq]
    by_cases h2 : (refreshSmtpQueue st svc).smtpQueue = []
    · rw [getNext_empty_queue st _ h2, refresh_idem]
      simp [h2, refresh_transports]
    · rw [getNext_nonempty st _ h2]
      cases hscan : scanFrom st (refreshSmtpQueue st svc).smtpQueue
          (refreshSmtpQueue st svc).currentSmtpIndex
          (refreshSmtpQueue st svc).currentSmtpIndex
          (refreshSmtpQueue st svc).smtpQueue.length with
      | ok p =>
        obtain ⟨c, idx⟩ := p
        simp [refresh_transports]
      | error e =>
        simp [refresh_transports]
  · rw [getNext_nonempty st svc hq]
    cases hscan : scanFrom st svc.smtpQueue svc.currentSmtpIndex svc.currentSmtpIndex
        svc.smtpQueue.length with
    | ok p =>
      obtain ⟨c, idx⟩ := p
      rfl
    | error e =>
      rfl

theorem find_default_eq (l : List SmtpConfig) (d : SmtpConfig)
    (hmem : d ∈ l) (hdef : d.isDefault = true)
    (huniq : ∀ c ∈ l, c.isDefault = true → c = d) :
    l.find? (fun c => c.isDefault) = some d := by
  induction l with
  | nil => cases hmem
  | cons a t ih =>
    by_cases ha : a.isDefault = true
    · have had : a = d := huniq a (List.mem_cons_self a t) ha
      rw [List.find?_cons_of_pos _ ha, had]
    · rw [List.find?_cons_of_neg _ ha]
      apply ih
      · cases List.mem_cons.mp hmem with
        | inl h => exact absurd (h ▸ hdef) ha
        | inr h => exact h
      · intro c hc hcd
        exact huniq c (List.mem_cons_of_mem _ hc) hcd

theorem getNext_head_available (st : Storage) (svc : EmailService)
    (d : SmtpConfig) (t : List SmtpConfig)
    (hqe : svc.smtpQueue = d :: t) (hc0 : svc.currentSmtpIndex = 0)
    (hq : underQuota st d) :
    getNextAvailableSmtp st svc = (Except.ok d, svc) := by
  have hne : svc.smtpQueue ≠ [] := by rw [hqe]; simp
  rw [getNext_nonempty st svc hne]
  have hget : svc.smtpQueue[svc.currentSmtpIndex]? = some d := by
    rw [hqe, hc0]; simp
  obtain ⟨n, hn⟩ : ∃ n, svc.smtpQueue.length = n + 1 := ⟨t.length, by rw [hqe]; simp⟩
  have hq' : st.getSmtpDailyCount d.id < d.dailyLimit := hq
  rw [hn]
  simp only [scanFrom, hget]
  rw [if_pos hq']

/-! Section: Claim theorems for the rotator -/

/-- C1: for every non-empty rotation queue holding at least one server
under quota (and a valid cursor, the queue invariant of the dispatcher),
`getNextAvailableSmtp` returns a server whose today-count is strictly
below its daily limit; the returned server is the first under-quota
server met scanning in queue order from the current cursor (every
position strictly before it in scan order is at or over quota), the
cursor is left at the returned server's index, and a repeated call from
the resulting state returns the same server with the cursor unmoved. -/
theorem c1_nextAvailable_under_quota (st : Storage) (svc : EmailService)
    (hne : svc.smtpQueue ≠ [])
    (hcur : svc.currentSmtpIndex < svc.smtpQueue.length)
    (havail : ∃ c ∈ svc.smtpQueue, underQuota st c) :
    ∃ config svc',
      getNextAvailableSmtp st svc = (Except.ok config, svc') ∧
      underQuota st config ∧
      svc'.smtpQueue = svc.smtpQueue ∧
      svc'.smtpQueue[svc'.currentSmtpIndex]? = some config ∧
      (∃ j, svc'.currentSmtpIndex = (svc.currentSmtpIndex + j) % svc.smtpQueue.length ∧
        ∀ i < j, ∃ ci,
          svc.smtpQueue[(svc.currentSmtpIndex + i) % svc.smtpQueue.length]? = some ci ∧
          ¬ underQuota st ci) ∧
      getNextAvailableSmtp st svc' = (Except.ok config, svc') := by
  obtain ⟨c, hcmem, hcq⟩ := havail
  obtain ⟨m, hmlt, hmeq⟩ := List.getElem_of_mem hcmem
  have hexj : ∃ j < svc.smtpQueue.length,
      (∃ cj, svc.smtpQueue[(svc.currentSmtpIndex + j) % svc.smtpQueue.length]? = some cj ∧
        underQuota st cj) ∧
      ∀ i, 0 < i → i ≤ j →
        (svc.currentSmtpIndex + i) % svc.smtpQueue.length ≠ svc.currentSmtpIndex := by
    by_cases hcm : svc.currentSmtpIndex ≤ m
    · refine ⟨m - svc.currentSmtpIndex, by omega, ⟨c, ?_, hcq⟩, ?_⟩
      · have h1 : svc.currentSmtpIndex + (m - svc.currentSmtpIndex) = m := by omega
        rw [h1, Nat.mod_eq_of_lt hmlt, List.getElem?_eq_getElem hmlt, hmeq]
      · intro i hi hij heq
        rcases Nat.lt_or_ge (svc.currentSmtpIndex + i) svc.smtpQueue.length with hlt | hge
        · rw [Nat.mod_eq_of_lt hlt] at heq; omega
        · have hsub : (svc.currentSmtpIndex + i) % svc.smtpQueue.length =
              svc.currentSmtpIndex + i - svc.smtpQueue.length := by
            rw [Nat.mod_eq_sub_mod hge, Nat.mod_eq_of_lt (by omega)]
          rw [hsub] at heq; omega
    · refine ⟨m + svc.smtpQueue.length - svc.currentSmtpIndex, by omega, ⟨c, ?_, hcq⟩, ?_⟩
      · have h1 : svc.currentSmtpIndex + (m + svc.smtpQueue.length - svc.currentSmtpIndex) =
            m + svc.smtpQueue.length := by omega
        rw [h1, Nat.add_mod_right, Nat.mod_eq_of_lt hmlt,
          List.getElem?_eq_getElem hmlt, hmeq]
      · intro i hi hij heq
        rcases Nat.lt_or_ge (svc.currentSmtpIndex + i) svc.smtpQueue.length with hlt | hge
        · rw [Nat.mod_eq_of_lt hlt] at heq; omega
        · have hsub : (svc.currentSmtpIndex + i) % svc.smtpQueue.length =
              svc.currentSmtpIndex + i - svc.smtpQueue.length := by
            rw [Nat.mod_eq_sub_mod hge, Nat.mod_eq_of_lt (by omega)]
          rw [hsub] at heq; omega
  obtain ⟨config, idx, hscan⟩ :=
    scanFrom_ok_of_exists st svc.smtpQueue svc.currentSmtpIndex svc.smtpQueue.length
      svc.currentSmtpIndex hcur
      (by obtain ⟨j, hj, hcj, hnw⟩ := hexj; exact ⟨j, hj, hcj, hnw⟩)
  have hmain : getNextAvailableSmtp st svc =
      (Except.ok config, { svc with currentSmtpIndex := idx }) := by
    rw [getNext_nonempty st svc hne, hscan]
  obtain ⟨hget, hquota⟩ := scanFrom_ok_char st _ _ _ _ _ _ hscan
  obtain ⟨j, hjf, hidx, hall⟩ := scanFrom_ok_first st _ _ _ _ _ _ hcur hscan
  refine ⟨config, { svc with currentSmtpIndex := idx }, hmain, hquota, rfl, hget,
    ⟨j, hidx, hall⟩, ?_⟩
  exact getNext_ok_again st svc _ _ config hmain rfl rfl

/-- Witness for C1 at a concrete input: a two-server queue whose first
server is at quota and whose second is available. -/
theorem c1_witness :
    ∃ config svc',
      getNextAvailableSmtp exStorageAFull exSvc = (Except.ok config, svc') ∧
      underQuota exStorageAFull config ∧
      svc'.smtpQueue = exSvc.smtpQueue ∧
      svc'.smtpQueue[svc'.currentSmtpIndex]? = some config ∧
      (∃ j, svc'.currentSmtpIndex = (exSvc.currentSmtpIndex + j) % exSvc.smtpQueue.length ∧
        ∀ i < j, ∃ ci,
          exSvc.smtpQueue[(exSvc.currentSmtpIndex + i) % exSvc.smtpQueue.length]? = some ci ∧
          ¬ underQuota exStorageAFull ci) ∧
      getNextAvailableSmtp exStorageAFull svc' = (Except.ok config, svc') :=
  c1_nextAvailable_under_quota exStorageAFull exSvc (by decide) (by decide)
    ⟨exB, by decide, by decide⟩

/-- C4: for every non-empty rotation queue (with a valid cursor) in which
every server's today-count is at or above its daily limit, the call
fails with the all-quotas-exhausted error; the scan loop's result is
already fixed at `queue.length` iterations of fuel (more fuel never
changes it, so the unbounded JS loop exits), and the number of positions
examined is bounded by the queue length, i.e. each position is examined
at most once before the scan wraps back to its start and fails. -/
theorem c4_nextAvailable_exhausted_terminates (st : Storage) (svc : EmailService)
    (hne : svc.smtpQueue ≠ [])
    (hcur : svc.currentSmtpIndex < svc.smtpQueue.length)
    (hall : ∀ c ∈ svc.smtpQueue, c.dailyLimit ≤ st.getSmtpDailyCount c.id) :
    (getNextAvailableSmtp st svc).1 = Except.error JsError.quotaExhausted ∧
    (∀ fuel, scanFrom st svc.smtpQueue svc.currentSmtpIndex svc.currentSmtpIndex fuel =
      Except.error JsError.quotaExhausted) ∧
    (∀ fuel, scanFromSteps st svc.smtpQueue svc.currentSmtpIndex svc.currentSmtpIndex fuel ≤
      svc.smtpQueue.length) := by
  have hall' : ∀ c ∈ svc.smtpQueue, ¬ underQuota st c := by
    intro c hc
    have := hall c hc
    unfold underQuota
    omega
  have hscan := scanFrom_exhausted st svc.smtpQueue svc.currentSmtpIndex hall'
  refine ⟨?_, fun fuel => hscan fuel _ hcur, ?_⟩
  · rw [getNext_nonempty st svc hne, hscan svc.smtpQueue.length _ hcur]
  · intro fuel
    have hb := scanFromSteps_le st svc.smtpQueue svc.currentSmtpIndex hcur fuel
      svc.currentSmtpIndex hcur
    rw [if_neg (lt_irrefl _)] at hb
    omega

/-- Witness for C4 at a concrete input: both servers of the two-server
queue are at their daily limits. -/
theorem c4_witness :
    (getNextAvailableSmtp exStorageAllFull exSvc).1 = Except.error JsError.quotaExhausted ∧
    (∀ fuel, scanFrom exStorageAllFull exSvc.smtpQueue exSvc.currentSmtpIndex
      exSvc.currentSmtpIndex fuel = Except.error JsError.quotaExhausted) ∧
    (∀ fuel, scanFromSteps exStorageAllFull exSvc.smtpQueue exSvc.currentSmtpIndex
      exSvc.currentSmtpIndex fuel ≤ exSvc.smtpQueue.length) :=
  c4_nextAvailable_exhausted_terminates exStorageAllFull exSvc (by decide) (by decide)
    (by decide)

/-- C5: for every stored config list containing a (unique) default
server, `refreshSmtpQueue` rebuilds the queue with the default server
first followed by the remaining configs in stored order, and resets the
cursor to 0; consequently, when that default server is under quota, the
first `getNextAvailableSmtp` call after the refresh returns it. -/
theorem c5_refresh_default_first (st : Storage) (svc : EmailService) (d : SmtpConfig)
    (hmem : d ∈ st.configs) (hdef : d.isDefault = true)
    (huniq : ∀ c ∈ st.configs, c.isDefault = true → c = d) :
    (refreshSmtpQueue st svc).smtpQueue =
        d :: st.configs.filter (fun c => !c.isDefault) ∧
    (refreshSmtpQueue st svc).currentSmtpIndex = 0 ∧
    (underQuota st d →
      getNextAvailableSmtp st (refreshSmtpQueue st svc) =
        (Except.ok d, refreshSmtpQueue st svc)) := by
  have hfind := find_default_eq st.configs d hmem hdef huniq
  have hqueue : (refreshSmtpQueue st svc).smtpQueue =
      d :: st.configs.filter (fun c => !c.isDefault) := by
    simp only [refreshSmtpQueue, hfind]
  have hcursor : (refreshSmtpQueue st svc).currentSmtpIndex = 0 := refresh_cursor st svc
  exact ⟨hqueue, hcursor, fun hq =>
    getNext_head_available st _ d _ hqueue hcursor hq⟩

/-- Witness for C5 at a concrete input: the two-server pool whose first
config is the unique default and has quota left. -/
theorem c5_witness :
    (refreshSmtpQueue exStorageFresh exSvc).smtpQueue =
        exA :: exStorageFresh.configs.filter (fun c => !c.isDefault) ∧
    (refreshSmtpQueue exStorageFresh exSvc).currentSmtpIndex = 0 ∧
    (underQuota exStorageFresh exA →
      getNextAvailableSmtp exStorageFresh (refreshSmtpQueue exStorageFresh exSvc) =
        (Except.ok exA, refreshSmtpQueue exStorageFresh exSvc)) :=
  c5_refresh_default_first exStorageFresh exSvc exA (by decide) (by decide) (by decide)

/-! Section: Lemmas about `getTransport` and the storage counters -/

theorem getTransport_queue (svc : EmailService) (config : SmtpConfig) :
    ((getTransport svc config).1).smtpQueue = svc.smtpQueue := by
  cases h : svc.transports.lookup config.id <;> simp [getTransport, h]

theorem getTransport_cursor (svc : EmailService) (config : SmtpConfig) :
    ((getTransport svc config).1).currentSmtpIndex = svc.currentSmtpIndex := by
  cases h : svc.transports.lookup config.id <;> simp [getTransport, h]

theorem getSmtpDailyCount_logEmail (st : Storage) (e : EmailLogEntry) (i : Nat) :
    (st.logEmail e).getSmtpDailyCount i =
      st.getSmtpDailyCount i +
        (if e.smtpConfigId = i ∧ e.status = LogStatus.sent then 1 else 0) := by
  by_cases h1 : e.smtpConfigId = i <;> by_cases h2 : e.status = LogStatus.sent <;>
    simp [Storage.getSmtpDailyCount, Storage.logEmail, List.filter_append, h1, h2] <;>
    omega

/-! Section: Computation lemmas for the dispatch loop body -/

theorem tryStep_ok_success (env : Env) (campaignId : String) (k : Nat) (email : Email)
    (st : Storage) (svc svc1 : EmailService) (config : SmtpConfig)
    (hnext : getNextAvailableSmtp st svc = (Except.ok config, svc1))
    (hsend : env.sendFails k = none) (hslog : env.sentLogFails k = none) :
    tryStep env campaignId k email st svc =
      Sum.inl ([Event.send config.id (fromField config) email.toAddr email.subject,
        Event.log (sentEntry campaignId config email), Event.wait RATE_LIMIT_DELAY],
        st.logEmail (sentEntry campaignId config email), (getTransport svc1 config).1) := by
  simp only [tryStep, hnext, hsend, hslog]
  rfl

theorem tryStep_sendFail (env : Env) (campaignId : String) (k : Nat) (email : Email)
    (st : Storage) (svc svc1 : EmailService) (config : SmtpConfig) (msg : String)
    (hnext : getNextAvailableSmtp st svc = (Except.ok config, svc1))
    (hsend : env.sendFails k = some msg) :
    tryStep env campaignId k email st svc =
      Sum.inr ([Event.send config.id (fromField config) email.toAddr email.subject],
        (getTransport svc1 config).1, JsError.env msg) := by
  simp only [tryStep, hnext, hsend]

theorem tryStep_slogFail (env : Env) (campaignId : String) (k : Nat) (email : Email)
    (st : Storage) (svc svc1 : EmailService) (config : SmtpConfig) (msg : String)
    (hnext : getNextAvailableSmtp st svc = (Except.ok config, svc1))
    (hsend : env.sendFails k = none) (hslog : env.sentLogFails k = some msg) :
    tryStep env campaignId k email st svc =
      Sum.inr ([Event.send config.id (fromField config) email.toAddr email.subject],
        (getTransport svc1 config).1, JsError.env msg) := by
  simp only [tryStep, hnext, hsend, hslog]

theorem tryStep_nextFail (env : Env) (campaignId : String) (k : Nat) (email : Email)
    (st : Storage) (svc svc1 : EmailService) (e : JsError)
    (hnext : getNextAvailableSmtp st svc = (Except.error e, svc1)) :
    tryStep env campaignId k email st svc = Sum.inr ([], svc1, e) := by
  simp only [tryStep, hnext]

theorem catchStep_ok (env : Env) (campaignId : String) (k : Nat) (email : Email)
    (st : Storage) (svc svc1 : EmailService) (config : SmtpConfig) (caught : JsError)
    (hnext : getNextAvailableSmtp st svc = (Except.ok config, svc1))
    (hflog : env.failedLogFails k = none) :
    catchStep env campaignId k email st svc caught =
      Sum.inl ([Event.log (failedEntry campaignId config email caught.message),
        Event.wait (RATE_LIMIT_DELAY * 2)],
        st.logEmail (failedEntry campaignId config email caught.message), svc1) := by
  simp only [catchStep, hnext, hflog]
  rfl

theorem catchStep_nextFail (env : Env) (campaignId : String) (k : Nat) (email : Email)
    (st : Storage) (svc svc1 : EmailService) (e : JsError) (caught : JsError)
    (hnext : getNextAvailableSmtp st svc = (Except.error e, svc1)) :
    catchStep env campaignId k email st svc caught = Sum.inr (svc1, e) := by
  simp only [catchStep, hnext]

/-! Section: Claim theorems for the dispatch loop -/

/-- C2: a task whose send attempt throws (here: the `sendMail` call
rejects with message `msg`) produces exactly one delivery-log entry,
with status `failed` and carrying the underlying error text, and the
loop then continues with the remaining tasks of the batch: the run on
`email :: rest` is the events of this failed task followed by the run
on `rest`.  (The server-selection hypothesis is the loop's own step;
the failure-path log write succeeding is the claim's ambient
assumption.) -/
theorem c2_send_failure_logged_and_continues (env : Env) (campaignId : String)
    (k : Nat) (email : Email) (rest : List Email)
    (st : Storage) (svc svc1 : EmailService) (config : SmtpConfig) (msg : String)
    (hsend : env.sendFails k = some msg)
    (hflog : env.failedLogFails k = none)
    (hnext : getNextAvailableSmtp st svc = (Except.ok config, svc1)) :
    (failedEntry campaignId config email msg).status = LogStatus.failed ∧
    (failedEntry campaignId config email msg).errorText = some msg ∧
    ∃ svc2,
      processEmails env campaignId k (email :: rest) st svc =
        (let entry := failedEntry campaignId config email msg
         let r := processEmails env campaignId (k + 1) rest (st.logEmail entry) svc2
         { r with trace :=
             Event.send config.id (fromField config) email.toAddr email.subject ::
             Event.log entry :: Event.wait (RATE_LIMIT_DELAY * 2) :: r.trace }) := by
  refine ⟨rfl, rfl, (getTransport svc1 config).1, ?_⟩
  have htry := tryStep_sendFail env campaignId k email st svc svc1 config msg hnext hsend
  have hnext2 : getNextAvailableSmtp st (getTransport svc1 config).1 =
      (Except.ok config, (getTransport svc1 config).1) :=
    getNext_ok_again st svc svc1 _ config hnext
      (getTransport_queue svc1 config) (getTransport_cursor svc1 config)
  have hcatch := catchStep_ok env campaignId k email st _ _ config (JsError.env msg)
    hnext2 hflog
  simp only [processEmails, htry, hcatch, JsError.message]
  rfl

/-- Witness for C2 at a concrete input: a one-task batch whose send
attempt rejects with "connection refused". -/
theorem c2_witness :
    (failedEntry "camp" exA exEmail1 "connection refused").status = LogStatus.failed ∧
    (failedEntry "camp" exA exEmail1 "connection refused").errorText =
      some "connection refused" ∧
    ∃ svc2,
      processEmails exEnvSendFail "camp" 0 [exEmail1] exStorageFresh exSvc =
        (let entry := failedEntry "camp" exA exEmail1 "connection refused"
         let r := processEmails exEnvSendFail "camp" 1 [] (exStorageFresh.logEmail entry) svc2
         { r with trace :=
             Event.send exA.id (fromField exA) exEmail1.toAddr exEmail1.subject ::
             Event.log entry :: Event.wait (RATE_LIMIT_DELAY * 2) :: r.trace }) :=
  c2_send_failure_logged_and_continues exEnvSendFail "camp" 0 exEmail1 []
    exStorageFresh exSvc exSvc exA "connection refused" rfl rfl rfl

/-- C3: when `getNextAvailableSmtp` fails with the no-servers or
all-quotas-exhausted error while a task is being handled, that error
propagates out of the dispatch loop (it is re-thrown by the catch
block's own re-selection) and the remaining tasks are never attempted:
the run aborts with that error, no send is made, and no delivery-log
entry is written for this task or any later one. -/
theorem c3_rotator_error_aborts_batch (env : Env) (campaignId : String)
    (k : Nat) (email : Email) (rest : List Email)
    (st : Storage) (svc svc1 : EmailService) (e : JsError)
    (hfatal : e = JsError.noSmtp ∨ e = JsError.quotaExhausted)
    (hnext : getNextAvailableSmtp st svc = (Except.error e, svc1)) :
    processEmails env campaignId k (email :: rest) st svc =
      { trace := [], storage := st, svc := svc1, err := some e } := by
  have htry := tryStep_nextFail env campaignId k email st svc svc1 e hnext
  have hagain := getNext_error_again st svc svc1 e hnext
  have hcatch := catchStep_nextFail env campaignId k email st svc1 svc1 e e hagain
  simp only [processEmails, htry, hcatch]

/-- Witness for C3 at a concrete input: an empty pool, so the first
task's server selection fails with the no-servers error and the
two-task batch aborts with nothing logged. -/
theorem c3_witness :
    processEmails exEnvOK "camp" 0 (exEmail1 :: [exEmail2]) exStorageEmpty
      { transports := [], currentSmtpIndex := 0, smtpQueue := [] } =
      { trace := [], storage := exStorageEmpty,
        svc := { transports := [], currentSmtpIndex := 0, smtpQueue := [] },
        err := some JsError.noSmtp } :=
  c3_rotator_error_aborts_batch exEnvOK "camp" 0 exEmail1 [exEmail2] exStorageEmpty
    { transports := [], currentSmtpIndex := 0, smtpQueue := [] }
    { transports := [], currentSmtpIndex := 0, smtpQueue := [] }
    JsError.noSmtp (Or.inl rfl) rfl

theorem catchStep_flogFail (env : Env) (campaignId : String) (k : Nat) (email : Email)
    (st : Storage) (svc svc1 : EmailService) (config : SmtpConfig) (caught : JsError)
    (msg : String)
    (hnext : getNextAvailableSmtp st svc = (Except.ok config, svc1))
    (hflog : env.failedLogFails k = some msg) :
    catchStep env campaignId k email st svc caught = Sum.inr (svc1, JsError.env msg) := by
  simp only [catchStep, hnext, hflog]

/-- C7: on a send failure the loop logs the failure against a server
obtained by a fresh `getNextAvailableSmtp` call made in the catch block
(on the state left by the failed attempt), not against the server of
the failed attempt itself: the `failed` entry carries the re-selected
server's id.  Moreover there are executions — the daily count is an
external shared counter, so another writer can append a `sent` entry
between the attempt and the logging — in which the re-selection returns
a different server than the attempt used, so the logged id
misattributes the failure. -/
theorem c7_failed_log_server_reselected (env : Env) (campaignId : String)
    (k : Nat) (email : Email) (rest : List Email)
    (st : Storage) (svc svc1 svc3 : EmailService) (config config2 : SmtpConfig)
    (msg : String)
    (hsend : env.sendFails k = some msg)
    (hflog : env.failedLogFails k = none)
    (hnext : getNextAvailableSmtp st svc = (Except.ok config, svc1))
    (hnext2 : getNextAvailableSmtp st (getTransport svc1 config).1 =
      (Except.ok config2, svc3)) :
    ((failedEntry campaignId config2 email msg).smtpConfigId = config2.id ∧
      processEmails env campaignId k (email :: rest) st svc =
        (let entry := failedEntry campaignId config2 email msg
         let r := processEmails env campaignId (k + 1) rest (st.logEmail entry) svc3
         { r with trace :=
             Event.send config.id (fromField config) email.toAddr email.subject ::
             Event.log entry :: Event.wait (RATE_LIMIT_DELAY * 2) :: r.trace })) ∧
    (∃ (stA : Storage) (svcA svcA1 svcB1 : EmailService) (ext : EmailLogEntry)
        (cfgA cfgB : SmtpConfig),
      getNextAvailableSmtp stA svcA = (Except.ok cfgA, svcA1) ∧
      ext.smtpConfigId = cfgA.id ∧ ext.status = LogStatus.sent ∧
      getNextAvailableSmtp (stA.logEmail ext) svcA1 = (Except.ok cfgB, svcB1) ∧
      cfgA.id ≠ cfgB.id) := by
  constructor
  · refine ⟨rfl, ?_⟩
    have htry := tryStep_sendFail env campaignId k email st svc svc1 config msg hnext hsend
    have hcatch := catchStep_ok env campaignId k email st _ _ config2 (JsError.env msg)
      hnext2 hflog
    simp only [processEmails, htry, hcatch, JsError.message]
    rfl
  · refine ⟨exStorageFresh, exSvc, exSvc, { exSvc with currentSmtpIndex := 1 },
      { smtpConfigId := 0, campaignId := "other", subscriberId := "x",
        status := LogStatus.sent },
      exA, exB, by rfl, rfl, rfl, by rfl, by decide⟩

/-- Witness for C7 at a concrete input: the one-task failing batch over
the fresh two-server pool; both selections land on the default server
in this sequential run. -/
theorem c7_witness :
    ((failedEntry "camp" exA exEmail1 "connection refused").smtpConfigId = exA.id ∧
      processEmails exEnvSendFail "camp" 0 (exEmail1 :: []) exStorageFresh exSvc =
        (let entry := failedEntry "camp" exA exEmail1 "connection refused"
         let r := processEmails exEnvSendFail "camp" 1 [] (exStorageFresh.logEmail entry)
           (getTransport exSvc exA).1
         { r with trace :=
             Event.send exA.id (fromField exA) exEmail1.toAddr exEmail1.subject ::
             Event.log entry :: Event.wait (RATE_LIMIT_DELAY * 2) :: r.trace })) ∧
    (∃ (stA : Storage) (svcA svcA1 svcB1 : EmailService) (ext : EmailLogEntry)
        (cfgA cfgB : SmtpConfig),
      getNextAvailableSmtp stA svcA = (Except.ok cfgA, svcA1) ∧
      ext.smtpConfigId = cfgA.id ∧ ext.status = LogStatus.sent ∧
      getNextAvailableSmtp (stA.logEmail ext) svcA1 = (Except.ok cfgB, svcB1) ∧
      cfgA.id ≠ cfgB.id) :=
  c7_failed_log_server_reselected exEnvSendFail "camp" 0 exEmail1 []
    exStorageFresh exSvc exSvc (getTransport exSvc exA).1 exA exA
    "connection refused" rfl rfl rfl (by rfl)

/-- C10: when the send itself succeeds but the success-path `logEmail`
write throws, the loop enters the catch path for that task: no `sent`
entry is recorded (the storage gains only the `failed` entry) and a
`failed` entry carrying the log-write error's text is written, after
which the loop continues with the remaining tasks. -/
theorem c10_sent_log_write_failure (env : Env) (campaignId : String)
    (k : Nat) (email : Email) (rest : List Email)
    (st : Storage) (svc svc1 : EmailService) (config : SmtpConfig) (msg : String)
    (hsend : env.sendFails k = none)
    (hslog : env.sentLogFails k = some msg)
    (hflog : env.failedLogFails k = none)
    (hnext : getNextAvailableSmtp st svc = (Except.ok config, svc1)) :
    (failedEntry campaignId config email msg).status = LogStatus.failed ∧
    (failedEntry campaignId config email msg).errorText = some msg ∧
    ∃ svc2,
      processEmails env campaignId k (email :: rest) st svc =
        (let entry := failedEntry campaignId config email msg
         let r := processEmails env campaignId (k + 1) rest (st.logEmail entry) svc2
         { r with trace :=
             Event.send config.id (fromField config) email.toAddr email.subject ::
             Event.log entry :: Event.wait (RATE_LIMIT_DELAY * 2) :: r.trace }) := by
  refine ⟨rfl, rfl, (getTransport svc1 config).1, ?_⟩
  have htry := tryStep_slogFail env campaignId k email st svc svc1 config msg hnext
    hsend hslog
  have hnext2 : getNextAvailableSmtp st (getTransport svc1 config).1 =
      (Except.ok config, (getTransport svc1 config).1) :=
    getNext_ok_again st svc svc1 _ config hnext
      (getTransport_queue svc1 config) (getTransport_cursor svc1 config)
  have hcatch := catchStep_ok env campaignId k email st _ _ config (JsError.env msg)
    hnext2 hflog
  simp only [processEmails, htry, hcatch, JsError.message]
  rfl

/-- Witness for C10 at a concrete input: a one-task batch whose send
succeeds but whose `sent` log write rejects with "db write failed". -/
theorem c10_witness :
    (failedEntry "camp" exA exEmail1 "db write failed").status = LogStatus.failed ∧
    (failedEntry "camp" exA exEmail1 "db write failed").errorText =
      some "db write failed" ∧
    ∃ svc2,
      processEmails exEnvLogFail "camp" 0 [exEmail1] exStorageFresh exSvc =
        (let entry := failedEntry "camp" exA exEmail1 "db write failed"
         let r := processEmails exEnvLogFail "camp" 1 [] (exStorageFresh.logEmail entry) svc2
         { r with trace :=
             Event.send exA.id (fromField exA) exEmail1.toAddr exEmail1.subject ::
             Event.log entry :: Event.wait (RATE_LIMIT_DELAY * 2) :: r.trace }) :=
  c10_sent_log_write_failure exEnvLogFail "camp" 0 exEmail1 []
    exStorageFresh exSvc exSvc exA "db write failed" rfl rfl rfl rfl

/-! Section: Pacing -/

theorem processEmails_paced (env : Env) (campaignId : String) :
    ∀ (emails : List Email) (k : Nat) (st : Storage) (svc : EmailService),
      pacedTrace (processEmails env campaignId k emails st svc).trace := by
  intro emails
  induction emails with
  | nil =>
    intro k st svc
    simp [processEmails, pacedTrace]
  | cons email rest ih =>
    intro k st svc
    cases hg : getNextAvailableSmtp st svc with
    | mk res svc1 =>
      cases res with
      | ok config =>
        have hnext2 : getNextAvailableSmtp st (getTransport svc1 config).1 =
            (Except.ok config, (getTransport svc1 config).1) :=
          getNext_ok_again st svc svc1 _ config hg
            (getTransport_queue svc1 config) (getTransport_cursor svc1 config)
        cases hsend : env.sendFails k with
        | none =>
          cases hslog : env.sentLogFails k with
          | none =>
            have htry := tryStep_ok_success env campaignId k email st svc svc1 config
              hg hsend hslog
            simp only [processEmails, htry]
            simp [pacedTrace, sentEntry, pacedWait, ih]
          | some msg =>
            have htry := tryStep_slogFail env campaignId k email st svc svc1 config msg
              hg hsend hslog
            cases hcf : env.failedLogFails k with
            | none =>
              have hcatch := catchStep_ok env campaignId k email st _ _ config
                (JsError.env msg) hnext2 hcf
              simp only [processEmails, htry, hcatch]
              simp [pacedTrace, failedEntry, pacedWait, ih]
            | some m2 =>
              have hcatch := catchStep_flogFail env campaignId k email st _ _ config
                (JsError.env msg) m2 hnext2 hcf
              simp only [processEmails, htry, hcatch]
              simp [pacedTrace]
        | some msg =>
          have htry := tryStep_sendFail env campaignId k email st svc svc1 config msg
            hg hsend
          cases hcf : env.failedLogFails k with
          | none =>
            have hcatch := catchStep_ok env campaignId k email st _ _ config
              (JsError.env msg) hnext2 hcf
            simp only [processEmails, htry, hcatch]
            simp [pacedTrace, failedEntry, pacedWait, ih]
          | some m2 =>
            have hcatch := catchStep_flogFail env campaignId k email st _ _ config
              (JsError.env msg) m2 hnext2 hcf
            simp only [processEmails, htry, hcatch]
            simp [pacedTrace]
      | error e =>
        have htry := tryStep_nextFail env campaignId k email st svc svc1 e hg
        have hagain := getNext_error_again st svc svc1 e hg
        have hcatch := catchStep_nextFail env campaignId k email st svc1 svc1 e e hagain
        simp only [processEmails, htry, hcatch]
        simp [pacedTrace]

/-- C8: the pacing delay is 2000 ms, and in every run of
`sendBulkEmails` each task's delivery-log write is immediately followed
by a `delay` request before the next task starts: of exactly the pacing
delay after a `sent` entry and exactly twice the pacing delay after a
`failed` entry. -/
theorem c8_pacing_between_tasks (env : Env) (campaignId : String) (emails : List Email)
    (st : Storage) (svc : EmailService) :
    RATE_LIMIT_DELAY = 2000 ∧
    pacedTrace (sendBulkEmails env campaignId emails st svc).trace :=
  ⟨rfl, processEmails_paced env campaignId emails 0 st (refreshSmtpQueue st svc)⟩

/-! Section: Single-server runs and quota exhaustion mid-batch -/

theorem getNext_single_exhausted (st : Storage) (svc : EmailService) (c : SmtpConfig)
    (hqe : svc.smtpQueue = [c]) (hc0 : svc.currentSmtpIndex = 0)
    (hfull : ¬ underQuota st c) :
    getNextAvailableSmtp st svc = (Except.error JsError.quotaExhausted, svc) := by
  have hne : svc.smtpQueue ≠ [] := by rw [hqe]; simp
  rw [getNext_nonempty st svc hne]
  rw [hqe, hc0]
  have hfull' : ¬ st.getSmtpDailyCount c.id < c.dailyLimit := hfull
  simp [scanFrom, hfull']

theorem refresh_single (st : Storage) (svc : EmailService) (c : SmtpConfig)
    (h : st.configs = [c]) :
    (refreshSmtpQueue st svc).smtpQueue = [c] := by
  simp only [refreshSmtpQueue, h]
  by_cases hc : c.isDefault = true
  · rw [List.find?_cons_of_pos _ hc]
    simp [hc]
  · rw [List.find?_cons_of_neg _ hc]
    simp

theorem processEmails_cons_success (env : Env) (campaignId : String) (k : Nat)
    (email : Email) (rest : List Email) (st : Storage) (svc svc1 : EmailService)
    (config : SmtpConfig)
    (hnext : getNextAvailableSmtp st svc = (Except.ok config, svc1))
    (hsend : env.sendFails k = none) (hslog : env.sentLogFails k = none) :
    processEmails env campaignId k (email :: rest) st svc =
      (let r := processEmails env campaignId (k + 1) rest
         (st.logEmail (sentEntry campaignId config email)) (getTransport svc1 config).1
       { r with trace := sentTaskEvents campaignId config email ++ r.trace }) := by
  have htry := tryStep_ok_success env campaignId k email st svc svc1 config hnext
    hsend hslog
  simp only [processEmails, htry]
  rfl

theorem processEmails_cons_abort (env : Env) (campaignId : String) (k : Nat)
    (email : Email) (rest : List Email) (st : Storage) (svc svc1 : EmailService)
    (e : JsError)
    (hnext : getNextAvailableSmtp st svc = (Except.error e, svc1)) :
    processEmails env campaignId k (email :: rest) st svc =
      { trace := [], storage := st, svc := svc1, err := some e } := by
  have htry := tryStep_nextFail env campaignId k email st svc svc1 e hnext
  have hagain := getNext_error_again st svc svc1 e hnext
  have hcatch := catchStep_nextFail env campaignId k email st svc1 svc1 e e hagain
  simp only [processEmails, htry, hcatch]

theorem processEmails_single_server (env : Env) (campaignId : String) (c : SmtpConfig)
    (hsend : ∀ k, env.sendFails k = none) (hslog : ∀ k, env.sentLogFails k = none) :
    ∀ (emails : List Email) (k : Nat) (st : Storage) (svc : EmailService),
      svc.smtpQueue = [c] → svc.currentSmtpIndex = 0 →
      (processEmails env campaignId k emails st svc).err =
        (if emails.length ≤ c.dailyLimit - st.getSmtpDailyCount c.id then none
         else some JsError.quotaExhausted) ∧
      (processEmails env campaignId k emails st svc).storage.logs =
        st.logs ++ (emails.take (c.dailyLimit - st.getSmtpDailyCount c.id)).map
          (sentEntry campaignId c) ∧
      (processEmails env campaignId k emails st svc).trace =
        ((emails.take (c.dailyLimit - st.getSmtpDailyCount c.id)).map
          (sentTaskEvents campaignId c)).flatten := by
  intro emails
  induction emails with
  | nil =>
    intro k st svc hq h0
    simp [processEmails]
  | cons email rest ih =>
    intro k st svc hq h0
    by_cases hcnt : underQuota st c
    · have hnext : getNextAvailableSmtp st svc = (Except.ok c, svc) :=
        getNext_head_available st svc c [] hq h0 hcnt
      rw [processEmails_cons_success env campaignId k email rest st svc svc c hnext
        (hsend k) (hslog k)]
      have hc1 : (st.logEmail (sentEntry campaignId c email)).getSmtpDailyCount c.id =
          st.getSmtpDailyCount c.id + 1 := by
        rw [getSmtpDailyCount_logEmail]
        simp [sentEntry]
      have hqs : ((getTransport svc c).1).smtpQueue = [c] := by
        rw [getTransport_queue]; exact hq
      have h0s : ((getTransport svc c).1).currentSmtpIndex = 0 := by
        rw [getTransport_cursor]; exact h0
      obtain ⟨ihe, ihl, iht⟩ := ih (k + 1) (st.logEmail (sentEntry campaignId c email))
        ((getTransport svc c).1) hqs h0s
      rw [hc1] at ihe ihl iht
      have hlt : st.getSmtpDailyCount c.id < c.dailyLimit := hcnt
      have hd : c.dailyLimit - st.getSmtpDailyCount c.id =
          (c.dailyLimit - (st.getSmtpDailyCount c.id + 1)) + 1 := by omega
      refine ⟨?_, ?_, ?_⟩
      · show (processEmails env campaignId (k + 1) rest
            (st.logEmail (sentEntry campaignId c email)) (getTransport svc c).1).err = _
        rw [ihe, hd]
        simp [Nat.succ_le_succ_iff]
      · show (processEmails env campaignId (k + 1) rest
            (st.logEmail (sentEntry campaignId c email)) (getTransport svc c).1).storage.logs = _
        rw [ihl, hd]
        simp [Storage.logEmail, List.take_succ_cons]
      · show sentTaskEvents campaignId c email ++
            (processEmails env campaignId (k + 1) rest
              (st.logEmail (sentEntry campaignId c email)) (getTransport svc c).1).trace = _
        rw [iht, hd]
        simp [List.take_succ_cons]
    · have hnext := getNext_single_exhausted st svc c hq h0 hcnt
      rw [processEmails_cons_abort env campaignId k email rest st svc svc
        JsError.quotaExhausted hnext]
      have hD : c.dailyLimit - st.getSmtpDailyCount c.id = 0 := by
        have : ¬ st.getSmtpDailyCount c.id < c.dailyLimit := hcnt
        omega
      rw [hD]
      refine ⟨?_, ?_, ?_⟩ <;> simp

/-- C6: a batch of N ≥ 1 tasks against a pool of exactly one server with
daily limit N-1 and a zero today-count, with every send and every
success-path log write succeeding, writes exactly the N-1 `sent` log
entries for that server (those of the first N-1 tasks, in order) and
then fails with the all-quotas-exhausted error before the remaining
task is sent or logged: the trace consists of exactly the events of the
first N-1 tasks. -/
theorem c6_single_server_limit_n_minus_one (env : Env) (campaignId : String)
    (emails : List Email) (st : Storage) (svc : EmailService) (c : SmtpConfig)
    (hconf : st.configs = [c])
    (hcount : st.getSmtpDailyCount c.id = 0)
    (hN : 1 ≤ emails.length)
    (hlimit : c.dailyLimit = emails.length - 1)
    (hsend : ∀ k, env.sendFails k = none)
    (hslog : ∀ k, env.sentLogFails k = none) :
    (sendBulkEmails env campaignId emails st svc).err = some JsError.quotaExhausted ∧
    (sendBulkEmails env campaignId emails st svc).storage.logs =
      st.logs ++ (emails.take (emails.length - 1)).map (sentEntry campaignId c) ∧
    (sendBulkEmails env campaignId emails st svc).trace =
      ((emails.take (emails.length - 1)).map (sentTaskEvents campaignId c)).flatten := by
  have hq : (refreshSmtpQueue st svc).smtpQueue = [c] := refresh_single st svc c hconf
  have h0 : (refreshSmtpQueue st svc).currentSmtpIndex = 0 := refresh_cursor st svc
  obtain ⟨ihe, ihl, iht⟩ := processEmails_single_server env campaignId c hsend hslog
    emails 0 st (refreshSmtpQueue st svc) hq h0
  rw [hcount, Nat.sub_zero, hlimit] at ihe ihl iht
  unfold sendBulkEmails
  refine ⟨?_, ihl, iht⟩
  rw [ihe, if_neg (by omega)]

/-- Witness for C6 at a concrete input: three tasks against the lone
server `exC` with daily limit 2. -/
theorem c6_witness :
    (sendBulkEmails exEnvOK "camp" exEmails exStorageSingle {}).err =
      some JsError.quotaExhausted ∧
    (sendBulkEmails exEnvOK "camp" exEmails exStorageSingle {}).storage.logs =
      exStorageSingle.logs ++
        (exEmails.take (exEmails.length - 1)).map (sentEntry "camp" exC) ∧
    (sendBulkEmails exEnvOK "camp" exEmails exStorageSingle {}).trace =
      ((exEmails.take (exEmails.length - 1)).map (sentTaskEvents "camp" exC)).flatten :=
  c6_single_server_limit_n_minus_one exEnvOK "camp" exEmails exStorageSingle {} exC
    rfl rfl (by decide) (by decide) (fun _ => rfl) (fun _ => rfl)

/-! Section: Transporter cache (C9) -/

theorem lookup_none_not_mem (k : Nat) (l : List (Nat × Transport))
    (h : l.lookup k = none) : k ∉ l.map Prod.fst := by
  induction l with
  | nil => simp
  | cons a t ih =>
    obtain ⟨ka, va⟩ := a
    by_cases hk : k = ka
    · subst hk
      simp [List.lookup] at h
    · have hbeq : (k == ka) = false := by simp [hk]
      simp only [List.lookup, hbeq] at h
      simp only [List.map_cons, List.mem_cons]
      rintro (rfl | hm)
      · exact hk rfl
      · exact ih h hm

theorem getTransport_cached (svc : EmailService) (config : SmtpConfig) (t : Transport)
    (h : svc.transports.lookup config.id = some t) :
    getTransport svc config = (svc, t) := by
  simp only [getTransport, h]

theorem getTransport_lookup_self (svc : EmailService) (config : SmtpConfig) :
    ((getTransport svc config).1).transports.lookup config.id =
      some (getTransport svc config).2 := by
  cases h : svc.transports.lookup config.id with
  | some t => simp [getTransport, h]
  | none => simp [getTransport, h, List.lookup]

theorem getTransport_mono (svc : EmailService) (config : SmtpConfig) :
    transportsExtend svc (getTransport svc config).1 := by
  intro key t0 hk
  cases h : svc.transports.lookup config.id with
  | some t => simpa [getTransport, h] using hk
  | none =>
    have hne : (key == config.id) = false := by
      simp only [beq_eq_false_iff_ne, ne_eq]
      intro he
      rw [he, h] at hk
      exact Option.noConfusion hk
    simp only [getTransport, h]
    simpa [List.lookup, hne] using hk

theorem getTransport_nodup (svc : EmailService) (config : SmtpConfig)
    (h : (svc.transports.map Prod.fst).Nodup) :
    (((getTransport svc config).1).transports.map Prod.fst).Nodup := by
  cases hl : svc.transports.lookup config.id with
  | some t => simpa [getTransport, hl] using h
  | none =>
    simp only [getTransport, hl, List.map_cons, List.nodup_cons]
    exact ⟨lookup_none_not_mem _ _ hl, h⟩

theorem extend_refl (svc : EmailService) : transportsExtend svc svc :=
  fun _ _ h => h

theorem extend_trans {svcA svcB svcC : EmailService}
    (h1 : transportsExtend svcA svcB) (h2 : transportsExtend svcB svcC) :
    transportsExtend svcA svcC :=
  fun k t h => h2 k t (h1 k t h)

theorem extend_of_transports_eq {svcA svcB : EmailService}
    (h : svcB.transports = svcA.transports) : transportsExtend svcA svcB := by
  intro k t hk
  rw [h]
  exact hk

theorem tryStep_inl_extend (env : Env) (campaignId : String) (k : Nat) (email : Email)
    (st : Storage) (svc : EmailService) (evs : List Event) (st1 : Storage)
    (svc1 : EmailService)
    (h : tryStep env campaignId k email st svc = Sum.inl (evs, st1, svc1)) :
    transportsExtend svc svc1 := by
  cases hg : getNextAvailableSmtp st svc with
  | mk res svcN =>
    have hN : svcN.transports = svc.transports := by
      have ht := getNext_transports st svc
      rw [hg] at ht
      exact ht
    cases res with
    | error e =>
      rw [tryStep_nextFail env campaignId k email st svc svcN e hg] at h
      simp at h
    | ok config =>
      cases hsend : env.sendFails k with
      | some msg =>
        rw [tryStep_sendFail env campaignId k email st svc svcN config msg hg hsend] at h
        simp at h
      | none =>
        cases hslog : env.sentLogFails k with
        | some msg =>
          rw [tryStep_slogFail env campaignId k email st svc svcN config msg hg
            hsend hslog] at h
          simp at h
        | none =>
          rw [tryStep_ok_success env campaignId k email st svc svcN config hg
            hsend hslog] at h
          simp only [Sum.inl.injEq, Prod.mk.injEq] at h
          obtain ⟨-, -, rfl⟩ := h
          exact extend_trans (extend_of_transports_eq hN) (getTransport_mono svcN config)

theorem tryStep_inr_extend (env : Env) (campaignId : String) (k : Nat) (email : Email)
    (st : Storage) (svc : EmailService) (evs : List Event) (svc1 : EmailService)
    (caught : JsError)
    (h : tryStep env campaignId k email st svc = Sum.inr (evs, svc1, caught)) :
    transportsExtend svc svc1 := by
  cases hg : getNextAvailableSmtp st svc with
  | mk res svcN =>
    have hN : svcN.transports = svc.transports := by
      have ht := getNext_transports st svc
      rw [hg] at ht
      exact ht
    cases res with
    | error e =>
      rw [tryStep_nextFail env campaignId k email st svc svcN e hg] at h
      simp only [Sum.inr.injEq, Prod.mk.injEq] at h
      obtain ⟨-, rfl, -⟩ := h
      exact extend_of_transports_eq hN
    | ok config =>
      cases hsend : env.sendFails k with
      | some msg =>
        rw [tryStep_sendFail env campaignId k email st svc svcN config msg hg hsend] at h
        simp only [Sum.inr.injEq, Prod.mk.injEq] at h
        obtain ⟨-, rfl, -⟩ := h
        exact extend_trans (extend_of_transports_eq hN) (getTransport_mono svcN config)
      | none =>
        cases hslog : env.sentLogFails k with
        | some msg =>
          rw [tryStep_slogFail env campaignId k email st svc svcN config msg hg
            hsend hslog] at h
          simp only [Sum.inr.injEq, Prod.mk.injEq] at h
          obtain ⟨-, rfl, -⟩ := h
          exact extend_trans (extend_of_transports_eq hN) (getTransport_mono svcN config)
        | none =>
          rw [tryStep_ok_success env campaignId k email st svc svcN config hg
            hsend hslog] at h
          simp at h

theorem catchStep_inl_extend (env : Env) (campaignId : String) (k : Nat) (email : Email)
    (st : Storage) (svc : EmailService) (caught : JsError) (evs : List Event)
    (st1 : Storage) (svc1 : EmailService)
    (h : catchStep env campaignId k email st svc caught = Sum.inl (evs, st1, svc1)) :
    transportsExtend svc svc1 := by
  cases hg : getNextAvailableSmtp st svc with
  | mk res svcN =>
    have hN : svcN.transports = svc.transports := by
      have ht := getNext_transports st svc
      rw [hg] at ht
      exact ht
    cases res with
    | error e =>
      rw [catchStep_nextFail env campaignId k email st svc svcN e caught hg] at h
      simp at h
    | ok config =>
      cases hcf : env.failedLogFails k with
      | some msg =>
        rw [catchStep_flogFail env campaignId k email st svc svcN config caught msg
          hg hcf] at h
        simp at h
      | none =>
        rw [catchStep_ok env campaignId k email st svc svcN config caught hg hcf] at h
        simp only [Sum.inl.injEq, Prod.mk.injEq] at h
        obtain ⟨-, -, rfl⟩ := h
        exact extend_of_transports_eq hN

theorem catchStep_inr_extend (env : Env) (campaignId : String) (k : Nat) (email : Email)
    (st : Storage) (svc : EmailService) (caught : JsError) (svc1 : EmailService)
    (e : JsError)
    (h : catchStep env campaignId k email st svc caught = Sum.inr (svc1, e)) :
    transportsExtend svc svc1 := by
  cases hg : getNextAvailableSmtp st svc with
  | mk res svcN =>
    have hN : svcN.transports = svc.transports := by
      have ht := getNext_transports st svc
      rw [hg] at ht
      exact ht
    cases res with
    | error e2 =>
      rw [catchStep_nextFail env campaignId k email st svc svcN e2 caught hg] at h
      simp only [Sum.inr.injEq, Prod.mk.injEq] at h
      obtain ⟨rfl, -⟩ := h
      exact extend_of_transports_eq hN
    | ok config =>
      cases hcf : env.failedLogFails k with
      | some msg =>
        rw [catchStep_flogFail env campaignId k email st svc svcN config caught msg
          hg hcf] at h
        simp only [Sum.inr.injEq, Prod.mk.injEq] at h
        obtain ⟨rfl, -⟩ := h
        exact extend_of_transports_eq hN
      | none =>
        rw [catchStep_ok env campaignId k email st svc svcN config caught hg hcf] at h
        simp at h

theorem processEmails_extend (env : Env) (campaignId : String) :
    ∀ (emails : List Email) (k : Nat) (st : Storage) (svc : EmailService),
      transportsExtend svc (processEmails env campaignId k emails st svc).svc := by
  intro emails
  induction emails with
  | nil =>
    intro k st svc
    exact extend_refl svc
  | cons email rest ih =>
    intro k st svc
    simp only [processEmails]
    cases htry : tryStep env campaignId k email st svc with
    | inl p =>
      obtain ⟨evs, st1, svc1⟩ := p
      dsimp only []
      exact extend_trans
        (tryStep_inl_extend env campaignId k email st svc evs st1 svc1 htry)
        (ih (k + 1) st1 svc1)
    | inr p =>
      obtain ⟨evs, svc1, caught⟩ := p
      dsimp only []
      have h1 := tryStep_inr_extend env campaignId k email st svc evs svc1 caught htry
      cases hcatch : catchStep env campaignId k email st svc1 caught with
      | inl q =>
        obtain ⟨evs2, st1, svc2⟩ := q
        exact extend_trans h1 (extend_trans
          (catchStep_inl_extend env campaignId k email st svc1 caught evs2 st1 svc2 hcatch)
          (ih (k + 1) st1 svc2))
      | inr q =>
        obtain ⟨svc2, e⟩ := q
        exact extend_trans h1
          (catchStep_inr_extend env campaignId k email st svc1 caught svc2 e hcatch)

/-- C9: the transporter cache is idempotent per server identifier.
A call with a cached identifier returns the cached handle and leaves the
state unchanged; after any call (a cache miss creates and caches the
handle) the handle is cached under the config's identifier, and a
subsequent call with any config bearing the same identifier returns
that same handle without changing the state; existing cache entries are
never removed or replaced by a call, distinct keys stay distinct (at
most one handle per identifier), and every cached handle survives,
unchanged, any full `sendBulkEmails` run. -/
theorem c9_transport_cache_idempotent (svc : EmailService) (config : SmtpConfig) :
    (∀ t, svc.transports.lookup config.id = some t → getTransport svc config = (svc, t)) ∧
    ((getTransport svc config).1.transports.lookup config.id =
      some (getTransport svc config).2) ∧
    (∀ config2, config2.id = config.id →
      getTransport (getTransport svc config).1 config2 =
        ((getTransport svc config).1, (getTransport svc config).2)) ∧
    transportsExtend svc (getTransport svc config).1 ∧
    ((svc.transports.map Prod.fst).Nodup →
      (((getTransport svc config).1).transports.map Prod.fst).Nodup) ∧
    (∀ (env : Env) (campaignId : String) (emails : List Email) (st : Storage),
      transportsExtend svc (sendBulkEmails env campaignId emails st svc).svc) := by
  refine ⟨fun t h => getTransport_cached svc config t h,
    getTransport_lookup_self svc config, ?_, getTransport_mono svc config,
    getTransport_nodup svc config, ?_⟩
  · intro config2 h2
    have hl : ((getTransport svc config).1).transports.lookup config2.id =
        some (getTransport svc config).2 := by
      rw [h2]
      exact getTransport_lookup_self svc config
    exact getTransport_cached _ config2 _ hl
  · intro env campaignId emails st
    exact extend_trans
      (extend_of_transports_eq (refresh_transports st svc))
      (processEmails_extend env campaignId emails 0 st (refreshSmtpQueue st svc))

/-- Witness for C9 at a concrete input: a cache already holding a handle
for server id 1; a hit returns it unchanged, a miss for server id 0
creates one, and the cached handle survives a full bulk-send run. -/
theorem c9_witness :
    getTransport exSvcT exB = (exSvcT, exT) ∧
    (getTransport exSvcT exA).1.transports.lookup exA.id =
      some (getTransport exSvcT exA).2 ∧
    getTransport (getTransport exSvcT exA).1 exA =
      ((getTransport exSvcT exA).1, (getTransport exSvcT exA).2) ∧
    (getTransport exSvcT exA).1.transports.lookup 1 = some exT ∧
    (((getTransport exSvcT exA).1).transports.map Prod.fst).Nodup ∧
    (sendBulkEmails exEnvOK "camp" exEmails exStorageFresh exSvcT).svc.transports.lookup 1 =
      some exT :=
  ⟨(c9_transport_cache_idempotent exSvcT exB).1 exT rfl,
   (c9_transport_cache_idempotent exSvcT exA).2.1,
   (c9_transport_cache_idempotent exSvcT exA).2.2.1 exA rfl,
   (c9_transport_cache_idempotent exSvcT exA).2.2.2.1 1 exT rfl,
   (c9_transport_cache_idempotent exSvcT exA).2.2.2.2.1 (by decide),
   (c9_transport_cache_idempotent exSvcT exA).2.2.2.2.2 exEnvOK "camp" exEmails
     exStorageFresh 1 exT rfl⟩

end EmailDispatch
